import Mathlib

/-!
# TunePulse-RS: verification of the fixed-point motor-control core

This file gives a shallow embedding, in Lean 4, of the integer algorithms of the
TunePulse motor-control firmware, and proves (or refutes) the specified properties
about them.

Conventions used throughout the embedding:
* Rust `u16`/`u32`/`usize` values are modelled as `Nat`, with explicit `% 2^16`,
  `% 2^32`, `% 2^64` at every operation where wrapping can occur.
* Rust `i16`/`i32` values are modelled as `Int`; casts and wrapping operations are
  made explicit via `toI16`, `toU16`, `wrap32` below.  Intermediate `i32`
  arithmetic that provably cannot overflow in the states reachable under the
  stated hypotheses is modelled as exact `Int` arithmetic.
* Rust `>>` on a signed integer is an arithmetic shift, i.e. floor division:
  `Int.fdiv x (2^k)`.  Rust `/` on signed integers truncates towards zero:
  `Int.tdiv`.  On unsigned values both are `Nat` division.
* Rust division by zero panics; the Lean model returns the Lean convention `0`
  in those (unreachable in the verified properties) cases, with a comment.
-/

namespace TunePulse

/-- Rust cast `as i16` of an integer quantity: reduce modulo `2^16` into
`[-32768, 32767]`. -/
def toI16 (x : Int) : Int := (x + 32768) % 65536 - 32768

/-- Rust cast `as u16` of an integer quantity: reduce modulo `2^16` into
`[0, 65535]`, returned as a `Nat`. -/
def toU16 (x : Int) : Nat := (x % 65536).toNat

/-- Wrapping `i32` arithmetic: reduce modulo `2^32` into `[-2^31, 2^31)`. -/
def wrap32 (x : Int) : Int := (x + 2 ^ 31) % 2 ^ 32 - 2 ^ 31

/-- Wrapping subtraction on `u32` bit patterns (`a.wrapping_sub b`, and equally
the composite cast `(a as i32 - b as i32) as u32` which wraps to the same bit
pattern). -/
def sub32 (a b : Nat) : Nat := (a + (2 ^ 32 - b % 2 ^ 32)) % 2 ^ 32

/-! ## `math_integer/filters/lpf.rs` — wrap-aware low-pass filter -/

/-- State of `FilterLPF` (`lpf.rs`).  `alpha` is a `u32` but is only ever
assigned from a `u8` (constructor and `set_alpha`), so `alpha ≤ 255` in every
reachable state. `output` is a `u16`, `temp` a `u32`. -/
structure FilterLPF where
  alpha : Nat
  output : Nat
  temp : Nat
  deriving Repr, DecidableEq

namespace FilterLPF

/-- `FilterLPF::RESOLUTION`: extra fractional bits kept by the accumulator. -/
def RESOLUTION : Nat := 7

/-- `FilterLPF::new(input_default, alpha)`. -/
def new (input_default alpha : Nat) : FilterLPF :=
  { alpha := alpha
    output := input_default
    temp := input_default * 2 ^ RESOLUTION % 2 ^ 32 }

/-- The private blend `FilterLPF::lpf`:
`(alpha * previous + (256 - alpha) * current) >> 8` in `u32` arithmetic
(wrapping in release builds, hence the explicit `% 2^32`).  `alpha ≤ 255`
in all reachable states, so the `Nat` subtraction `256 - alpha` agrees with
the `u32` subtraction. -/
def lpf (current previous alpha : Nat) : Nat :=
  (alpha * previous + (256 - alpha) * current) % 2 ^ 32 / 2 ^ 8

/-- `FilterLPF::tick`: plain (non wrap-aware) IIR update. -/
def tick (f : FilterLPF) (input : Nat) : FilterLPF :=
  let current := input * 2 ^ RESOLUTION % 2 ^ 32
  let temp := lpf current f.temp f.alpha
  { f with temp := temp, output := temp / 2 ^ RESOLUTION % 2 ^ 16 }

/-- `THRESHOLD_POS = 1u32 << (16 + RESOLUTION - 1)`. -/
def THRESHOLD_POS : Nat := 2 ^ (16 + RESOLUTION - 1)

/-- `THRESHOLD_NEG = THRESHOLD_POS.wrapping_neg()`. -/
def THRESHOLD_NEG : Nat := (2 ^ 32 - THRESHOLD_POS) % 2 ^ 32

/-- `MASK = 2 * THRESHOLD_POS - 1`. -/
def MASK : Nat := 2 * THRESHOLD_POS - 1

/-- The "zero cross offset calculation" block of `FilterLPF::tick_oflw`:
`diff = THRESHOLD_POS.wrapping_add((self.temp as i32 - current as i32) as u32)`
(the composite cast wraps to the same `u32` bit pattern as a wrapping
subtraction), and `diff >> 31 != 0` tests the sign bit of that pattern. -/
def zero_cross_offst (temp current : Nat) : Nat :=
  let diff := (THRESHOLD_POS + sub32 temp current) % 2 ^ 32
  if diff ≤ MASK then 0
  else if diff / 2 ^ 31 ≠ 0 then THRESHOLD_NEG
  else THRESHOLD_POS

/-- `FilterLPF::tick_oflw`: wrap-aware IIR update. -/
def tick_oflw (f : FilterLPF) (input : Nat) : FilterLPF :=
  let current := input * 2 ^ RESOLUTION % 2 ^ 32
  let offst := zero_cross_offst f.temp current
  let prevs_sub_offst := sub32 f.temp offst
  let curnt_add_offst := (current + offst) % 2 ^ 32
  let temp1 := lpf curnt_add_offst prevs_sub_offst f.alpha
  let temp2 := (temp1 + offst) % 2 ^ 32 &&& MASK
  { f with temp := temp2, output := temp2 / 2 ^ RESOLUTION % 2 ^ 16 }

/-- `FilterLPF::get_output`. -/
def get_output (f : FilterLPF) : Nat := f.output

/-- `FilterLPF::set_alpha`. -/
def set_alpha (f : FilterLPF) (alpha : Nat) : FilterLPF := { f with alpha := alpha }

end FilterLPF

/-! ## `encoder_position/speed_estimator.rs` — finite-difference speed estimator -/

/-- State of `SpeedEstimator`.  `pos_buffer` is the circular buffer `[i32; SIZE]`;
`idx` is kept `< SIZE` by every operation, so the `getD`/`set` accesses below hit
a real slot (Rust indexing would panic otherwise). -/
structure SpeedEstimator where
  freq : Nat
  speed : Int
  pos_buffer : List Int
  idx : Nat
  deriving Repr, DecidableEq

namespace SpeedEstimator

/-- Buffer size constant `SIZE`. -/
def SIZE : Nat := 8

/-- `SpeedEstimator::new(init_position, freq)`. -/
def new (init_position : Int) (freq : Nat) : SpeedEstimator :=
  { freq := freq, speed := 0, pos_buffer := List.replicate SIZE init_position, idx := 0 }

/-- `SpeedEstimator::tick(new_position)`.  The position difference and the
product with the frequency use wrapping `i32` arithmetic (`wrapping_mul` is
explicit in the source); the final division is Rust `/` (towards zero). -/
def tick (s : SpeedEstimator) (new_position : Int) : SpeedEstimator :=
  let difference := wrap32 (new_position - s.pos_buffer.getD s.idx 0)
  let speed := Int.tdiv (wrap32 (difference * s.freq)) (SIZE : Int)
  { s with
    speed := speed
    pos_buffer := s.pos_buffer.set s.idx new_position
    idx := (s.idx + 1) % SIZE }

/-- `SpeedEstimator::get_speed`. -/
def get_speed (s : SpeedEstimator) : Int := s.speed

end SpeedEstimator

/-! ## `encoder_position/mod.rs` — absolute position tracker -/

/-- State of `EncoderPosition`.  `position` is the combined `i32`
"rotations : angle" value; it always lies in `[-2^31, 2^31)` (see
`EncoderPosition.Wf`). -/
structure EncoderPosition where
  position : Int
  filter : FilterLPF
  speed_estimator : SpeedEstimator
  deriving Repr, DecidableEq

namespace EncoderPosition

/-- The `i32` range invariant maintained by `new`/`tick` for `position`. -/
def Wf (e : EncoderPosition) : Prop :=
  -2 ^ 31 ≤ e.position ∧ e.position < 2 ^ 31

/-- `EncoderPosition::new(freq)`: filter starts with default input 0 and
alpha 0, the speed estimator with position 0. -/
def new (freq : Nat) : EncoderPosition :=
  { position := 0
    filter := FilterLPF.new 0 0
    speed_estimator := SpeedEstimator.new 0 freq }

/-- `EncoderPosition::tick(input_pos)`:
`prev_angle = self.position as u16`;
`dif = self.filter.get_output().wrapping_sub(prev_angle) as i16`
(the `u16` wrapping subtraction followed by the `as i16` cast is exactly
`toI16 (output - prev_angle)`); the new position is the wrapping `i32` sum. -/
def tick (e : EncoderPosition) (input_pos : Nat) : EncoderPosition :=
  let filter := e.filter.tick input_pos
  let prev_angle : Int := e.position % 65536
  let dif : Int := toI16 ((filter.get_output : Int) - prev_angle)
  let position := wrap32 (e.position + dif)
  { position := position
    filter := filter
    speed_estimator := e.speed_estimator.tick position }

/-- `EncoderPosition::angle`: `self.position as u16` (as an integer value). -/
def angle (e : EncoderPosition) : Int := e.position % 65536

/-- `EncoderPosition::rotations`: `(self.position >> 16) as i16`; the shift is
arithmetic, i.e. floor division. -/
def rotations (e : EncoderPosition) : Int := toI16 (Int.fdiv e.position (2 ^ 16))

/-- `EncoderPosition::position` getter. -/
def positionOut (e : EncoderPosition) : Int := e.position

/-- `EncoderPosition::speed` getter. -/
def speed (e : EncoderPosition) : Int := e.speed_estimator.get_speed

/-- `EncoderPosition::set_alpha`. -/
def set_alpha (e : EncoderPosition) (alpha : Nat) : EncoderPosition :=
  { e with filter := e.filter.set_alpha alpha }

/-- `EncoderPosition::reset`. -/
def reset (e : EncoderPosition) : EncoderPosition := { e with position := 0 }

end EncoderPosition

/-! ## `math_integer/controllers/pid.rs` — fixed-point PID controller

The source is compiled with `FAST_MATH = true`; the embedding takes the
corresponding branch of `apply_coef`, `fixed_point_correction` and `fit_coef`.
The `i32` intermediate arithmetic provably stays far within `i32` range in the
states covered by the theorems below, so it is modelled as exact `Int`
arithmetic; the final `as i16` store of the output is the explicit `toI16`. -/

structure PID where
  kp : Int
  ki : Int
  kd : Int
  kff : Int
  integral : Int
  previous_error : Int
  output : Int
  deriving Repr, DecidableEq

namespace PID

/-- `PID::clamp(value, limit)`. -/
def clamp (value limit : Int) : Int :=
  if limit < value then limit
  else if value < -limit then -limit
  else value

/-- `PID::apply_coef(value, coef)` (`FAST_MATH` branch): `(value * coef) >> 7`,
an arithmetic shift, i.e. floor division. -/
def apply_coef (value coef : Int) : Int := Int.fdiv (value * coef) (2 ^ 7)

/-- `PID::fixed_point_correction(value)` (`FAST_MATH` branch): identity. -/
def fixed_point_correction (value : Int) : Int := value

/-- `PID::fit_coef(coef)` (`FAST_MATH` branch): clamp to ±10000 (percent),
then `(coef << 7) / 100` with Rust `/` (towards zero). -/
def fit_coef (coef : Int) : Int := Int.tdiv (clamp coef 10000 * 2 ^ 7) 100

/-- `PID::new(kp, ki, kd, kff)`. -/
def new (kp ki kd kff : Int) : PID :=
  { kp := fit_coef kp
    ki := fit_coef ki
    kd := fit_coef kd
    kff := fit_coef kff
    integral := 0
    previous_error := 0
    output := 0 }

/-- `PID::tick(error, feedfwd, limit)`.  `(error + previous_error) >> 1` is an
arithmetic shift (floor division); the integral accumulator is clamped to
±limit before `ki` is applied; the summed output is clamped to ±limit and then
stored into the `i16` `output` field. -/
def tick (p : PID) (error feedfwd limit : Int) : PID :=
  let pterm := apply_coef error p.kp
  let integral := p.integral + Int.fdiv (error + p.previous_error) 2
  let integral := clamp integral limit
  let iterm := apply_coef integral p.ki
  let derivative := error - p.previous_error
  let dterm := apply_coef derivative p.kd
  let ff := apply_coef feedfwd p.kff
  let output := pterm + iterm + dterm + ff
  let output := fixed_point_correction output
  { p with
    integral := integral
    previous_error := error
    output := toI16 (clamp output limit) }

/-- `PID::output()`. -/
def outputGet (p : PID) : Int := p.output

/-- Folding a sequence of `tick` calls (with one fixed limit) over a
controller: the state after a sequence of `PID::tick(error, feedforward, L)`
calls. -/
def run (p : PID) (inputs : List (Int × Int)) (limit : Int) : PID :=
  inputs.foldl (fun q i => q.tick i.1 i.2 limit) p

end PID

/-! ## `motor_driver/calibration/calibration_table.rs` — calibration table -/

/-- State of `CalibrationTable<const N: usize>`.  `cal_table` is the `[u16; N]`
array (length `N` in every reachable state); the index fields are `usize`,
modelled as `Nat` with explicit `% 2^64` at the one wrapping operation
(`idx.wrapping_sub(self.temp_idx)` in `fill_first`). -/
structure CalibrationTable where
  cal_table : List Nat
  cal_size : Nat
  el_angle_div : Nat
  offst_idx : Nat
  offst_val : Nat
  max_deviation : Nat
  temp_idx : Nat
  deriving Repr, DecidableEq

namespace CalibrationTable

/-- `CalibrationTable::<N>::new()`. -/
def new (N : Nat) : CalibrationTable :=
  { cal_table := List.replicate N 0
    cal_size := 0
    el_angle_div := 1
    offst_idx := 0
    offst_val := 0
    max_deviation := 0
    temp_idx := 0 }

/-- `CalibrationTable::reset(el_angle_div)`. -/
def reset (t : CalibrationTable) (el_angle_div : Nat) : CalibrationTable :=
  { t with
    offst_idx := 0
    el_angle_div := el_angle_div
    cal_size := 0
    offst_val := 65535
    max_deviation := 0
    temp_idx := 0 }

/-- `CalibrationTable::fill_first(idx, val)` for table capacity `N`: accepts
iff `idx < N && idx.wrapping_sub(self.temp_idx) <= 1` (`usize` wrapping
subtraction, modelled modulo `2^64`); on success stores `val` at `idx`,
records `idx` as the new `temp_idx` and raises `cal_size` to
`max(cal_size, idx + 1)`; on failure only logs. -/
def fill_first (t : CalibrationTable) (N idx val : Nat) : CalibrationTable × Bool :=
  if idx < N ∧ (idx + (2 ^ 64 - t.temp_idx % 2 ^ 64)) % 2 ^ 64 ≤ 1 then
    ({ t with
        temp_idx := idx
        cal_table := t.cal_table.set idx val
        cal_size := max t.cal_size (idx + 1) }, true)
  else (t, false)

end CalibrationTable

/-! ## `math_integer/clarke_transform.rs` — inverse Clarke transform -/

/-- `SQRT3DIV2 = (1.7320508075688772 / 2.0 * 65536.0) as i32`: the f64 product
is `56755.84…`, truncated by the cast to `56755`. -/
def SQRT3DIV2 : Int := 56755

/-- `inverse_clarke_transform(sin, cos)`.  The two `>>` shifts on `i32` are
arithmetic shifts, i.e. floor divisions. -/
def inverse_clarke_transform (sin cos : Int) : Int × Int × Int :=
  let beta_sqrt3_div2 : Int := Int.fdiv (SQRT3DIV2 * cos) (2 ^ 16)
  let a : Int := sin
  let b : Int := -(Int.fdiv sin 2) + beta_sqrt3_div2
  let c : Int := -(Int.fdiv sin 2) - beta_sqrt3_div2
  (a, b, c)

/-! ## `motor_driver/driver_pwm/motor_selector.rs` — motor-type selector -/

/-- Motor type enumeration (`MotorType`): `UNDEFINED`, `DC`, `STEP`
(named `STEPPER` in the `pwm_control` module's copy of the enum) and `BLDC`. -/
inductive MotorType where
  | UNDEFINED
  | DC
  | STEP
  | BLDC
  deriving Repr, DecidableEq

/-- State of `MotorSelector` (`driver_pwm/motor_selector.rs`).  `ch_abcd` is
the `[i16; 4]` channel array. -/
structure MotorSelector where
  voltg_ab : Int × Int
  voltg_sup : Int
  mode : MotorType
  ch_abcd : List Int
  deriving Repr, DecidableEq

namespace MotorSelector

/-- `MotorSelector::DISBL = i16::MIN`. -/
def DISBL : Int := -32768

/-- `MotorSelector::new(mode)`. -/
def new (mode : MotorType) : MotorSelector :=
  { mode := mode, voltg_ab := (0, 0), voltg_sup := 0, ch_abcd := [0, 0, 0, 0] }

/-- `MotorSelector::math_coil(voltg_ref)`: `MIDPOINT = i16::MAX / 2 = 16383`,
`duty = voltg_ref / 2` with Rust `/` (towards zero); the two sums are `i16`
additions (they provably do not overflow, the `toI16` makes the store
explicit). -/
def math_coil (voltg_ref : Int) : Int × Int :=
  if voltg_ref = DISBL ∨ voltg_ref = 0 then (voltg_ref, voltg_ref)
  else
    let duty : Int := Int.tdiv voltg_ref 2
    (toI16 (16383 + duty), toI16 (16383 - duty))

/-- `MotorSelector::math_svpwm(voltg_sin, voltg_cos, voltg_available)`.
`voltg_scale = (voltg_available << 15) / voltg_full_scale` uses Rust `/`
(towards zero; division by zero — only reachable for a negative supply — is
a Rust panic, modelled by Lean's `tdiv _ 0 = 0`); the `>> 15` and `>> 1`
shifts are arithmetic (floor); the final `as i16` casts are `toI16`. -/
def math_svpwm (voltg_sin voltg_cos voltg_available : Int) : Int × Int × Int :=
  let abc := inverse_clarke_transform voltg_sin voltg_cos
  let voltg_min : Int := min (min abc.1 abc.2.1) abc.2.2
  let voltg_max : Int := max (max abc.1 abc.2.1) abc.2.2
  let voltg_full_scale : Int := voltg_max - voltg_min
  let s :=
    if voltg_full_scale > voltg_available then
      let voltg_scale : Int := Int.tdiv (voltg_available * 2 ^ 15) voltg_full_scale
      (Int.fdiv (abc.1 * voltg_scale) (2 ^ 15),
       Int.fdiv (abc.2.1 * voltg_scale) (2 ^ 15),
       Int.fdiv (abc.2.2 * voltg_scale) (2 ^ 15),
       -(Int.fdiv (voltg_min * voltg_scale) (2 ^ 15)))
    else
      (abc.1, abc.2.1, abc.2.2, Int.fdiv (voltg_available - voltg_max - voltg_min) 2)
  if voltg_full_scale ≠ 0 then
    (toI16 (s.1 + s.2.2.2), toI16 (s.2.1 + s.2.2.2), toI16 (s.2.2.1 + s.2.2.2))
  else
    (toI16 s.1, toI16 s.2.1, toI16 s.2.2.1)

/-- `MotorSelector::tick0phase`. -/
def tick0phase (m : MotorSelector) : MotorSelector :=
  { m with ch_abcd := [0, 0, 0, 0] }

/-- `MotorSelector::tick1phase`. -/
def tick1phase (m : MotorSelector) : MotorSelector :=
  let xy := math_coil m.voltg_ab.1
  { m with ch_abcd := [xy.1, xy.2, DISBL, DISBL] }

/-- `MotorSelector::tick2phase`. -/
def tick2phase (m : MotorSelector) : MotorSelector :=
  let xy := math_coil m.voltg_ab.1
  let zw := math_coil m.voltg_ab.2
  { m with ch_abcd := [xy.1, xy.2, zw.1, zw.2] }

/-- `MotorSelector::tick3phase`. -/
def tick3phase (m : MotorSelector) : MotorSelector :=
  let abc := math_svpwm m.voltg_ab.1 m.voltg_ab.2 m.voltg_sup
  { m with ch_abcd := [abc.1, abc.2.1, abc.2.2, DISBL] }

/-- `MotorSelector::tick(voltg_ab, voltg_sup)`. -/
def tick (m : MotorSelector) (voltg_ab : Int × Int) (voltg_sup : Int) :
    MotorSelector × List Int :=
  let m := { m with voltg_ab := voltg_ab, voltg_sup := voltg_sup }
  let m :=
    match m.mode with
    | MotorType.UNDEFINED => tick0phase m
    | MotorType.DC => tick1phase m
    | MotorType.STEP => tick2phase m
    | MotorType.BLDC => tick3phase m
  (m, m.ch_abcd)

/-- `MotorSelector::change_mode(mode)`. -/
def change_mode (m : MotorSelector) (mode : MotorType) : MotorSelector :=
  { m with mode := mode }

end MotorSelector

/-! ## `motor_driver/driver_pwm/sel_phase.rs` — phase-pattern selector
(the `pwm_control/phase_selector.rs` copy is textually identical). -/

/-- `PhasePattern` enumeration with its `2-bit-per-channel` encodings. -/
inductive PhasePattern where
  | ABCD
  | ACDB
  | ADBC
  | DCAB
  deriving Repr, DecidableEq

/-- The `u8` value of a `PhasePattern` (`ABCD = 0b11100100`, …). -/
def PhasePattern.val : PhasePattern → Nat
  | .ABCD => 0b11100100
  | .ACDB => 0b01111000
  | .ADBC => 0b10011100
  | .DCAB => 0b01001011

/-- State of `PhaseSelector`: the mode byte and the four decoded channel
indices. -/
structure PhaseSelector where
  mode : Nat
  idxs : List Nat
  deriving Repr, DecidableEq

namespace PhaseSelector

/-- The index-decoding common to `new` and `change_mode`:
`(mode >> (2*k)) & 0b11` for the four channels. -/
def decode (mode : Nat) : List Nat :=
  [(mode >>> 0) &&& 0b11,
   (mode >>> 2) &&& 0b11,
   (mode >>> 4) &&& 0b11,
   (mode >>> 6) &&& 0b11]

/-- `PhaseSelector::new(mode)`. -/
def new (mode : PhasePattern) : PhaseSelector :=
  { mode := mode.val, idxs := decode mode.val }

/-- `PhaseSelector::change_mode(mode)` — `mode` is any `u8`. -/
def change_mode (s : PhaseSelector) (mode : Nat) : PhaseSelector :=
  { mode := mode, idxs := decode mode }

/-- `PhaseSelector::tick(voltages)`: `voltages[self.idxs[k]]` for the four
channels.  Rust panics on an out-of-bounds index; the `getD` default is never
used because every decoded index is `< 4` (proved below). -/
def tick (s : PhaseSelector) (voltages : List Int) : List Int :=
  [voltages.getD (s.idxs.getD 0 0) 0,
   voltages.getD (s.idxs.getD 1 0) 0,
   voltages.getD (s.idxs.getD 2 0) 0,
   voltages.getD (s.idxs.getD 3 0) 0]

/-- The in-bounds invariant on the decoded channel indices. -/
def Inv (s : PhaseSelector) : Prop :=
  s.idxs.length = 4 ∧ ∀ i ∈ s.idxs, i < 4

end PhaseSelector

/-! ## `math_integer/trigonometry.rs` — quarter-wave sine lookup -/

/-- `SINE_QUARTER_WAVE`: the 257-entry i1.15 quarter-wave sine table
(decimal values of the source's hex literals). -/
def SINE_QUARTER_WAVE : List Int :=
[
  0, 201, 402, 603, 804, 1005, 1206, 1406, 1607, 1808, 2009, 2209,
  2410, 2610, 2811, 3011, 3211, 3411, 3611, 3811, 4011, 4210, 4409, 4608,
  4807, 5006, 5205, 5403, 5601, 5799, 5997, 6195, 6392, 6589, 6786, 6982,
  7179, 7375, 7571, 7766, 7961, 8156, 8351, 8545, 8739, 8932, 9126, 9319,
  9511, 9703, 9895, 10087, 10278, 10469, 10659, 10849, 11038, 11227, 11416, 11604,
  11792, 11980, 12166, 12353, 12539, 12724, 12909, 13094, 13278, 13462, 13645, 13827,
  14009, 14191, 14372, 14552, 14732, 14911, 15090, 15268, 15446, 15623, 15799, 15975,
  16150, 16325, 16499, 16672, 16845, 17017, 17189, 17360, 17530, 17699, 17868, 18036,
  18204, 18371, 18537, 18702, 18867, 19031, 19194, 19357, 19519, 19680, 19840, 20000,
  20159, 20317, 20474, 20631, 20787, 20942, 21096, 21249, 21402, 21554, 21705, 21855,
  22004, 22153, 22301, 22448, 22594, 22739, 22883, 23027, 23169, 23311, 23452, 23592,
  23731, 23869, 24006, 24143, 24278, 24413, 24546, 24679, 24811, 24942, 25072, 25201,
  25329, 25456, 25582, 25707, 25831, 25954, 26077, 26198, 26318, 26437, 26556, 26673,
  26789, 26905, 27019, 27132, 27244, 27355, 27466, 27575, 27683, 27790, 27896, 28001,
  28105, 28208, 28309, 28410, 28510, 28608, 28706, 28802, 28897, 28992, 29085, 29177,
  29268, 29358, 29446, 29534, 29621, 29706, 29790, 29873, 29955, 30036, 30116, 30195,
  30272, 30349, 30424, 30498, 30571, 30643, 30713, 30783, 30851, 30918, 30984, 31049,
  31113, 31175, 31236, 31297, 31356, 31413, 31470, 31525, 31580, 31633, 31684, 31735,
  31785, 31833, 31880, 31926, 31970, 32014, 32056, 32097, 32137, 32176, 32213, 32249,
  32284, 32318, 32350, 32382, 32412, 32441, 32468, 32495, 32520, 32544, 32567, 32588,
  32609, 32628, 32646, 32662, 32678, 32692, 32705, 32717, 32727, 32736, 32744, 32751,
  32757, 32761, 32764, 32766, 32767
]

/-- `angle2sincos(angle)`: quadrant-folded table lookup.  `angle as u16 >> 6`
keeps the top 10 bits; `index & 0xFF` selects within the quarter wave
(so `index ≤ 255` and `256 - index` are both in table range — Rust indexing
cannot panic); the top 2 bits choose the quadrant. -/
def angle2sincos (angle : Int) : Int × Int :=
  let angle_uint := toU16 angle >>> 6
  let index := angle_uint &&& 0xFF
  let a := SINE_QUARTER_WAVE.getD index 0
  let b := SINE_QUARTER_WAVE.getD (256 - index) 0
  let quadrant := angle_uint >>> 8
  match quadrant with
  | 0 => (a, b)
  | 1 => (b, -a)
  | 2 => (-a, -b)
  | _ => (-b, a)

/-- `scale_sincos(input, scale)`: i1.15 scaling; the `>> 15` shifts are
arithmetic (floor) and the final `as i16` casts are `toI16`. -/
def scale_sincos (input : Int × Int) (scale : Int) : Int × Int :=
  (toI16 (Int.fdiv (input.1 * scale) (2 ^ 15)),
   toI16 (Int.fdiv (input.2 * scale) (2 ^ 15)))

/-! ## `motor_driver/pwm_control/mod.rs` — `MotorPWM` wrapper

The file `motor_driver/pwm_control/motor_selector.rs` that `mod.rs` imports is
not present under `src/`; its `MotorSelector` is called here as
`self.motor_sel.tick(voltg_ab, 25000)`, exactly the signature and role of
`driver_pwm/motor_selector.rs` (spec section 4.7 describes one motor-type
selector with the SVPWM three-phase path), so that selector is used as its
model. -/

structure MotorPWM where
  motor_sel : MotorSelector
  phase_sel : PhaseSelector
  deriving Repr, DecidableEq

namespace MotorPWM

/-- `MotorPWM::new(motor, connection)`. -/
def new (motor : MotorType) (connection : PhasePattern) : MotorPWM :=
  { motor_sel := MotorSelector.new motor, phase_sel := PhaseSelector.new connection }

/-- `MotorPWM::tick(voltg_ab)`: motor-type selection at a fixed supply of
25000, then phase re-mapping. -/
def tick (m : MotorPWM) (voltg_ab : Int × Int) : MotorPWM × List Int :=
  let r := m.motor_sel.tick voltg_ab 25000
  ({ m with motor_sel := r.1 }, m.phase_sel.tick r.2)

/-- `MotorPWM::tick_angle(voltg_ang)`: angle to sin/cos, scale by the
amplitude, then `tick`. -/
def tick_angle (m : MotorPWM) (voltg_ang : Int × Int) : MotorPWM × List Int :=
  let voltage_ab := angle2sincos voltg_ang.1
  let voltage_ab_scaled := scale_sincos voltage_ab voltg_ang.2
  tick m voltage_ab_scaled

/-- `MotorPWM::change_motor_mode`. -/
def change_motor_mode (m : MotorPWM) (motor : MotorType) : MotorPWM :=
  { m with motor_sel := m.motor_sel.change_mode motor }

/-- `MotorPWM::change_phase_mode`. -/
def change_phase_mode (m : MotorPWM) (connection : PhasePattern) : MotorPWM :=
  { m with phase_sel := m.phase_sel.change_mode connection.val }

end MotorPWM

/-! ## `motor_driver/mod.rs` — top-level `MotorDriver` state machine -/

/-- `MotorStatus` (`motor_driver/mod.rs`). -/
inductive MotorStatus where
  | Calibrating
  | Ready
  | Error
  deriving Repr, DecidableEq

/-- `CalStage` (`motor_driver/mod.rs`). -/
inductive CalStage where
  | Setup
  | Settle
  | FirstStep
  | SearchZero
  | FullRotationCW
  | FullRotationCCW
  deriving Repr, DecidableEq

/-- `CalSamplingState` (`motor_driver/mod.rs`). -/
inductive CalSamplingState where
  | Setup
  | Rotating
  | Waiting
  | Sampling
  deriving Repr, DecidableEq

/-- `i32::MIN`, the "not ready yet" sentinel of the calibration cycle. -/
def I32_MIN : Int := -(2 ^ 31)

/-- `i32::MAX`. -/
def I32_MAX : Int := 2 ^ 31 - 1

/-- State of the top-level `MotorDriver` (`motor_driver/mod.rs`), field for
field.  `data` is the `[i32; 200]` sample array (never written in this
version of the source). -/
structure MotorDriver where
  motor : MotorPWM
  frequency : Nat
  pwm : List Int
  position : Int
  motor_status : MotorStatus
  calibration_stage : CalStage
  cal_cycle_stage : CalSamplingState
  angle_el : Nat
  cal_idx : Nat
  data : List Int
  oversampled_pos : Int
  time_in_state : Nat
  amplitude : Int
  cal_step : Nat
  direction : Int
  speed : Int
  init_pos : Int
  temp_pos : Int
  cal_dif_max : Int
  cal_dif_min : Int
  deriving Repr, DecidableEq

namespace MotorDriver

/-- `MotorDriver::new(motor, connection, frequency)`.  `CAL_SPEED = 32`,
initial amplitude 6400. -/
def new (motor : MotorType) (connection : PhasePattern) (frequency : Nat) :
    MotorDriver :=
  { motor := MotorPWM.new motor connection
    frequency := frequency
    position := 0
    motor_status := MotorStatus.Calibrating
    calibration_stage := CalStage.Settle
    cal_cycle_stage := CalSamplingState.Setup
    angle_el := 0
    cal_idx := 0
    data := List.replicate 200 0
    oversampled_pos := 0
    time_in_state := 0
    pwm := [0, 0, 0, 0]
    amplitude := 6400
    cal_step := 0
    direction := 0
    speed := 32
    init_pos := 0
    temp_pos := 0
    cal_dif_max := I32_MIN
    cal_dif_min := I32_MAX }

/-- `MotorDriver::iter(counter)`: decrement a `u16` counter towards zero;
returns the new counter and the "reached zero" flag. -/
def iter (counter : Nat) : Nat × Bool :=
  if 0 < counter then (counter - 1, false) else (counter, true)

/-- `MotorDriver::move_at_speed(increment)`: wrapping `u16` advance of the
electrical angle by `increment as u16`. -/
def move_at_speed (d : MotorDriver) (increment : Int) : MotorDriver :=
  { d with angle_el := (d.angle_el + toU16 increment) % 65536 }

/-- `MotorDriver::cal_oversampling(position, iter, integral)`:
`CAL_OVERSEMPLING = 64`.  The `u16` decrement `*iter -= 1` wraps (release
semantics; it is never reached with `iter = 0`); the division is Rust `/`. -/
def cal_oversampling (position : Int) (it : Nat) (integral : Int) :
    Nat × Int × Bool :=
  let integral := wrap32 (integral + position)
  let it := (it + 65536 - 1) % 65536
  if it = 0 then (it, Int.tdiv integral 64, true) else (it, integral, false)

/-- `MotorDriver::run_calibration_cycle(steps)`:
`CAL_SETTLING_TIME = 256`, `CAL_OVERSEMPLING = 64`.  In the `Setup` state
`steps / self.speed.abs() as u16` is `u16` division (division by zero — only
reachable with `speed = 0` — is a Rust panic, modelled by Lean's `_ / 0 = 0`).
Returns the updated driver and the stable position (or the `I32_MIN`
sentinel). -/
def run_calibration_cycle (d : MotorDriver) (steps : Nat) : MotorDriver × Int :=
  match d.cal_cycle_stage with
  | CalSamplingState.Setup =>
      ({ d with
          oversampled_pos := 0
          cal_cycle_stage := CalSamplingState.Rotating
          time_in_state := steps / (d.speed.natAbs % 65536) }, I32_MIN)
  | CalSamplingState.Rotating =>
      let d := move_at_speed d d.speed
      let r := iter d.time_in_state
      let d := { d with time_in_state := r.1 }
      let d :=
        if r.2 then
          { d with cal_cycle_stage := CalSamplingState.Waiting, time_in_state := 256 }
        else d
      (d, I32_MIN)
  | CalSamplingState.Waiting =>
      let r := iter d.time_in_state
      let d := { d with time_in_state := r.1 }
      let d :=
        if r.2 then
          { d with cal_cycle_stage := CalSamplingState.Sampling, time_in_state := 64 }
        else d
      (d, I32_MIN)
  | CalSamplingState.Sampling =>
      let r := cal_oversampling d.position d.time_in_state d.oversampled_pos
      let d := { d with time_in_state := r.1, oversampled_pos := r.2.1 }
      if r.2.2 then
        ({ d with cal_cycle_stage := CalSamplingState.Setup }, d.oversampled_pos)
      else (d, I32_MIN)

/-- `MotorDriver::tick_calibrate()`:
`CAL_FIRST_STEP_USTEPS = 16`, `CAL_SPEED = 32`.  The `i32` subtractions and
products use wrapping arithmetic (`wrap32`), `(travel * direction) / 16` is
Rust `/`, and the `i16` stores of `speed` go through `toI16`. -/
def tick_calibrate (d : MotorDriver) : MotorDriver :=
  let rc := run_calibration_cycle d d.cal_step
  let d := rc.1
  let stable_pos := rc.2
  if stable_pos ≠ I32_MIN then
    match d.calibration_stage with
    | CalStage.Settle =>
        { d with cal_idx := 10, calibration_stage := CalStage.Setup }
    | CalStage.Setup =>
        let r := iter d.cal_idx
        let d := { d with cal_idx := r.1 }
        if r.2 then
          { d with
              init_pos := stable_pos
              temp_pos := stable_pos
              cal_dif_max := I32_MIN
              cal_dif_min := I32_MAX
              cal_step := 65535 / 16
              cal_idx := 16
              calibration_stage := CalStage.FirstStep }
        else d
    | CalStage.FirstStep =>
        let dif := wrap32 (d.temp_pos - stable_pos)
        let d :=
          { d with
              temp_pos := stable_pos
              cal_dif_min := min d.cal_dif_min dif
              cal_dif_max := max d.cal_dif_max dif }
        let r := iter d.cal_idx
        let d := { d with cal_idx := r.1 }
        if r.2 then
          let travel := wrap32 (d.init_pos - d.temp_pos)
          let direction := Int.sign travel
          let d := { d with direction := direction }
          let avg_step := Int.tdiv (wrap32 (travel * direction)) 16
          let diviation := wrap32 (d.cal_dif_max - d.cal_dif_min)
          if avg_step < wrap32 (diviation * 2) then
            { d with motor_status := MotorStatus.Error }
          else
            { d with
                cal_idx := 0
                cal_step := 65535 / 4
                speed := toI16 (32 * d.direction)
                calibration_stage := CalStage.SearchZero }
        else d
    | CalStage.SearchZero =>
        if stable_pos < 0 then
          { d with
              calibration_stage := CalStage.FullRotationCW
              speed := toI16 (-d.speed)
              cal_idx := 0 }
        else d
    | CalStage.FullRotationCW =>
        if stable_pos > 65535 then
          { d with
              calibration_stage := CalStage.FullRotationCCW
              cal_idx := 0
              speed := toI16 (-d.speed) }
        else { d with cal_idx := (d.cal_idx + 1) % 65536 }
    | CalStage.FullRotationCCW =>
        if stable_pos < 0 then { d with motor_status := MotorStatus.Ready }
        else { d with cal_idx := (d.cal_idx + 1) % 65536 }
  else d

/-- `MotorDriver::tick_run(voltg_angle)`. -/
def tick_run (d : MotorDriver) (voltg_angle : Int × Int) : MotorDriver :=
  let d := move_at_speed d voltg_angle.1
  { d with amplitude := voltg_angle.2 }

/-- `MotorDriver::tick(voltg_angle, encoder_pos)`: store the encoder
position; dispatch on the status (`Ready` runs, `Error` forces zero
amplitude, otherwise calibrate); then always compute the PWM array through
`MotorPWM::tick_angle((angle_el as i16, amplitude))` and return it. -/
def tick (d : MotorDriver) (voltg_angle : Int × Int) (encoder_pos : Int) :
    MotorDriver × List Int :=
  let d := { d with position := encoder_pos }
  let d :=
    match d.motor_status with
    | MotorStatus.Ready => tick_run d voltg_angle
    | MotorStatus.Error => { d with amplitude := 0 }
    | MotorStatus.Calibrating => tick_calibrate d
  let r := d.motor.tick_angle (toI16 d.angle_el, d.amplitude)
  let d := { d with motor := r.1, pwm := r.2 }
  (d, d.pwm)

/-- `MotorDriver::is_ready()`. -/
def is_ready (d : MotorDriver) : Bool :=
  match d.motor_status with
  | MotorStatus.Ready => true
  | _ => false

/-- `MotorDriver::get_pwm()`. -/
def get_pwm (d : MotorDriver) : List Int := d.pwm

end MotorDriver

/-! ## `math_integer/motor/coil.rs` — coil duty helpers -/

namespace coil
namespace duty

/-- `coil::duty::center(voltg_ref)`: `duty = voltg_ref >> 1` (arithmetic
shift, floor), `MIDPOINT = i16::MAX >> 1 = 16383`; sentinel `i16::MIN` and
zero references pass through unchanged. -/
def center (voltg_ref : Int) : Int × Int :=
  if voltg_ref = -32768 ∨ voltg_ref = 0 then (voltg_ref, voltg_ref)
  else
    let dutyv : Int := Int.fdiv voltg_ref 2
    (toI16 (16383 + dutyv), toI16 (16383 - dutyv))

end duty
end coil

namespace bldc
namespace duty

/-- Modelled from the spec: `math_integer/motor/bldc.rs` (`duty::ab2abc`),
imported by `driver_pwm/sel_motor.rs`, is not under `src/`.  Spec section 4.7
(BLDC): "performs inverse-Clarke transform on (sin,cos) to get 3 phase
references, finds min/max across the 3, and either scales all three
proportionally if their span exceeds available supply headroom, or shifts all
three by a centering offset" — i.e. the SVPWM computation of
`MotorSelector::math_svpwm`; the spec does not give this entry point's supply
constant, so the full positive `i16` range is used. -/
def ab2abc (a b : Int) : Int × Int × Int :=
  MotorSelector.math_svpwm a b 32767

end duty
end bldc

/-! ## `motor_driver/driver_pwm/sel_motor.rs` — duty-based motor selector -/

namespace SelMotor

/-- `DISBL = i16::MIN` (`sel_motor.rs`, module-level constant). -/
def DISBL : Int := -32768

/-- State of `MotorSelector` (`sel_motor.rs`). -/
structure MotorSelector where
  duty_ab : Int × Int
  mode : MotorType
  ch_abcd : List Int
  deriving Repr, DecidableEq

namespace MotorSelector

/-- `MotorSelector::new(mode)` (`sel_motor.rs`). -/
def new (mode : MotorType) : MotorSelector :=
  { mode := mode, duty_ab := (0, 0), ch_abcd := [0, 0, 0, 0] }

/-- `MotorSelector::tick0phase` (`sel_motor.rs`). -/
def tick0phase (m : MotorSelector) : MotorSelector :=
  { m with ch_abcd := [0, 0, 0, 0] }

/-- `MotorSelector::tick1phase` (`sel_motor.rs`). -/
def tick1phase (m : MotorSelector) : MotorSelector :=
  let xy := coil.duty.center m.duty_ab.1
  { m with ch_abcd := [xy.1, xy.2, DISBL, DISBL] }

/-- `MotorSelector::tick2phase` (`sel_motor.rs`). -/
def tick2phase (m : MotorSelector) : MotorSelector :=
  let xy := coil.duty.center m.duty_ab.1
  let zw := coil.duty.center m.duty_ab.2
  { m with ch_abcd := [xy.1, xy.2, zw.1, zw.2] }

/-- `MotorSelector::tick3phase` (`sel_motor.rs`). -/
def tick3phase (m : MotorSelector) : MotorSelector :=
  let abc := bldc.duty.ab2abc m.duty_ab.1 m.duty_ab.2
  { m with ch_abcd := [abc.1, abc.2.1, abc.2.2, DISBL] }

/-- `MotorSelector::tick(voltg_ab)` (`sel_motor.rs`). -/
def tick (m : MotorSelector) (voltg_ab : Int × Int) : MotorSelector × List Int :=
  let m := { m with duty_ab := voltg_ab }
  let m :=
    match m.mode with
    | MotorType.UNDEFINED => tick0phase m
    | MotorType.DC => tick1phase m
    | MotorType.STEP => tick2phase m
    | MotorType.BLDC => tick3phase m
  (m, m.ch_abcd)

/-- `MotorSelector::change_mode(mode)` (`sel_motor.rs`). -/
def change_mode (m : MotorSelector) (mode : MotorType) : MotorSelector :=
  { m with mode := mode }

end MotorSelector

end SelMotor

/-! ## `math_integer/normalization.rs` — unit conversion helper -/

/-- `value_to_norm(value, full_scale)`: `BIT_SHIFT = 9`;
`scale = full_scale >> 6` (arithmetic shift), and
`((value << 9) / scale) as i16` with Rust `/` (division by zero — a
`full_scale` below 64 — is a Rust panic, modelled by Lean's `tdiv _ 0 = 0`). -/
def value_to_norm (value full_scale : Int) : Int :=
  let scale := Int.fdiv full_scale (2 ^ 6)
  toI16 (Int.tdiv (value * 2 ^ 9) scale)

/-! ## `motor_driver/driver_pwm/mod.rs` — `DriverPWM`

The `ControlMode`, `DriverStatus` and `Motor` items that `driver_pwm/mod.rs`
imports from its parent are not under `src/`; the inductives and the
structure below are modelled from the spec (sections 3 and 4.8: the
`{Calibrating, Ready, Error}` lifecycle, the `VoltageAB`/`CurrentAB` control
modes, and the motor-configuration record whose fields this file reads). -/

/-- Modelled from the spec: `DriverStatus` — "State machine:
Calibrating → Ready → (Error on failure)" (spec section 4.8); the three
variants are matched by name in `DriverPWM::tick_control`. -/
inductive DriverStatus where
  | Ready
  | Error
  | Calibrating
  deriving Repr, DecidableEq

/-- Modelled from the spec: `ControlMode` — "`ControlMode::VoltageAB` bypasses
transformation; `CurrentAB` converts a commanded current magnitude into a
voltage reference" (spec section 4.8); the two variants are matched by name in
`DriverPWM::normal_run`. -/
inductive ControlMode where
  | CurrentAB
  | VoltageAB
  deriving Repr, DecidableEq

/-- Modelled from the spec: the `Motor` configuration record; the fields are
those read by `DriverPWM` (`resistance` in `normal_run`, `pole_type`,
`connection` and `direction` in `new`). -/
structure Motor where
  resistance : Int
  pole_type : MotorType
  connection : PhasePattern
  direction : Int
  deriving Repr, DecidableEq

/-- State of `DriverPWM` (`driver_pwm/mod.rs`), field for field. -/
structure DriverPWM where
  brake : Int
  motor_type : SelMotor.MotorSelector
  phase_sel : PhaseSelector
  control_mode : ControlMode
  status : DriverStatus
  angle : Int
  current : Int
  direction : Int
  ch_1234 : List Int
  motor : Motor
  deriving Repr, DecidableEq

namespace DriverPWM

/-- `DriverPWM::new(motor, control_mode)` (`MotorDriver` trait impl). -/
def new (motor : Motor) (control_mode : ControlMode) : DriverPWM :=
  { brake := 0
    angle := 0
    current := 0
    direction := motor.direction
    control_mode := control_mode
    status := DriverStatus.Ready
    motor_type := SelMotor.MotorSelector.new motor.pole_type
    phase_sel := PhaseSelector.new motor.connection
    ch_1234 := [0, 0, 0, 0]
    motor := motor }

/-- `DriverPWM::normal_run(ab, supply)`: in `CurrentAB` mode converts the
commanded current into a voltage reference via the motor resistance
(`ma * mOhm / 1000 -> mV`), normalizes against a 69000 mV full scale, scales
by `1/supply` (Rust `/`; `supply = 0` would panic, modelled by `tdiv _ 0 = 0`),
clamps the scale to `i16::MAX` from above, and applies it to the sin/cos pair;
`VoltageAB` passes `ab` through. -/
def normal_run (d : DriverPWM) (ab : Int × Int) (supply : Int) : Int × Int :=
  match d.control_mode with
  | ControlMode.CurrentAB =>
      let sincos_ab := angle2sincos ab.1
      let targ_voltage := Int.tdiv (ab.2 * d.motor.resistance) 1000
      let norm_targ_voltage := value_to_norm targ_voltage 69000
      let scale0 := Int.tdiv (norm_targ_voltage * 2 ^ 15) supply
      let scale1 := if scale0 > 32767 then (32767 : Int) else scale0
      scale_sincos sincos_ab (toI16 scale1)
  | ControlMode.VoltageAB => ab

/-- `DriverPWM::tick_control(ab_inpt, supply)`: in `Ready` the commanded
`(a, b)` pair is used; in `Error` and `Calibrating` the pair `(0, 0)` is
substituted; the pipeline (`normal_run`, motor-type selection, phase
re-mapping) then always runs and its 4-channel result is stored and
returned. -/
def tick_control (d : DriverPWM) (ab_inpt : Int × Int) (supply : Int) :
    DriverPWM × List Int :=
  let voltage_ab :=
    match d.status with
    | DriverStatus.Ready => ab_inpt
    | DriverStatus.Error => ((0 : Int), (0 : Int))
    | DriverStatus.Calibrating => ((0 : Int), (0 : Int))
  let voltage_ab := normal_run d voltage_ab supply
  let r := d.motor_type.tick voltage_ab
  let ch := d.phase_sel.tick r.2
  ({ d with motor_type := r.1, ch_1234 := ch }, ch)

/-- `DriverPWM::is_ready()`. -/
def is_ready (d : DriverPWM) : Bool :=
  match d.status with
  | DriverStatus.Ready => true
  | _ => false

/-- `DriverPWM::get_control()`. -/
def get_control (d : DriverPWM) : List Int := d.ch_1234

end DriverPWM

end TunePulse

/-! ## Theorems: low-pass filter (claims on `tick_oflw`) -/

namespace TunePulse

namespace FilterLPF

/-- Helper: the bitmask `& MASK` is reduction modulo `2^23`. -/
theorem mask_and (x : Nat) : x &&& MASK = x % 2 ^ 23 := by
  have := Nat.and_pow_two_sub_one_eq_mod x 23
  simpa [MASK, THRESHOLD_POS, RESOLUTION] using this

/-- Helper: the IIR blend with `alpha = 0` keeps the low 24 bits of the input. -/
theorem lpf_zero (c p : Nat) : lpf c p 0 = c % 2 ^ 24 := by
  simp only [lpf]
  omega

/-- Helper: the IIR blend with `alpha = 255` on in-range operands. -/
theorem lpf_255 (c p : Nat) (hc : c < 2 ^ 24) (hp : p < 2 ^ 24) :
    lpf c p 255 = (255 * p + c) / 256 := by
  simp only [lpf]
  omega

/-- Helper: the zero-cross offset takes one of exactly three values:
`0`, `THRESHOLD_NEG = 4290772992` or `THRESHOLD_POS = 4194304`. -/
theorem zco_cases (t c : Nat) :
    zero_cross_offst t c = 0 ∨ zero_cross_offst t c = 4290772992 ∨
      zero_cross_offst t c = 4194304 := by
  simp only [zero_cross_offst]
  split
  · exact Or.inl rfl
  · split
    · exact Or.inr (Or.inl (by norm_num [THRESHOLD_NEG, THRESHOLD_POS, RESOLUTION]))
    · exact Or.inr (Or.inr (by norm_num [THRESHOLD_POS, RESOLUTION]))

/-- Helper: one plain `tick` leaves the output below `2^16`. -/
theorem tick_output_lt (f : FilterLPF) (input : Nat) :
    (f.tick input).output < 65536 := by
  simp only [FilterLPF.tick]
  exact Nat.mod_lt _ (by norm_num)

end FilterLPF

open FilterLPF in
/-- C4: for every `u16` input and every internal filter state, one call of the
wrap-aware `FilterLPF::tick_oflw` with `alpha = 0` makes `get_output()` return
exactly the input: at `alpha = 0` the filter is the identity within one tick,
including across the `0/65535` wrap boundary where the bias offset is applied
and removed. -/
theorem lpf_alpha0_pass (f : FilterLPF) (ha : f.alpha = 0)
    (input : Nat) (hin : input < 65536) :
    (f.tick_oflw input).get_output = input := by
  simp only [FilterLPF.tick_oflw, FilterLPF.get_output, ha, mask_and, lpf_zero, RESOLUTION]
  rcases zco_cases f.temp (input * 2 ^ 7 % 2 ^ 32) with h | h | h <;> rw [h] <;> omega

/-- Witness for C4 at a concrete state (arbitrary accumulator) and input. -/
theorem lpf_alpha0_pass_witness :
    (({ alpha := 0, output := 123, temp := 999999 } : FilterLPF).tick_oflw 65530).get_output
      = 65530 :=
  lpf_alpha0_pass { alpha := 0, output := 123, temp := 999999 } rfl 65530 (by norm_num)

/-- C5 counterexample: with `alpha = 255` the output is NOT frozen.  From the
reachable state `FilterLPF::new(0, 255)` (output 0), one `tick_oflw(65535)`
moves the output across the wrap boundary to 65535. -/
theorem lpf_alpha255_not_frozen :
    ((FilterLPF.new 0 255).tick_oflw 65535).get_output ≠
      (FilterLPF.new 0 255).get_output := by decide

open FilterLPF in
/-- C5 (amended): with `alpha = 255` the filter is not fully frozen; the
output is unchanged whenever the tick input equals the current output (the
filter state is a fixed point), for every reachable state (accumulator within
`MASK` and output mirroring the accumulator's top bits). -/
theorem lpf_alpha255_fixed (f : FilterLPF) (ha : f.alpha = 255)
    (hT : f.temp ≤ MASK) (hout : f.output = f.temp / 2 ^ 7) :
    (f.tick_oflw f.output).get_output = f.output := by
  have hM : f.temp ≤ 2 ^ 23 - 1 := by
    simpa [MASK, THRESHOLD_POS, RESOLUTION] using hT
  have hcur : f.output * 2 ^ 7 % 2 ^ 32 = f.temp / 2 ^ 7 * 2 ^ 7 := by
    rw [hout]; omega
  have hzco : zero_cross_offst f.temp (f.temp / 2 ^ 7 * 2 ^ 7) = 0 := by
    have h1 : (THRESHOLD_POS + sub32 f.temp (f.temp / 2 ^ 7 * 2 ^ 7)) % 2 ^ 32 ≤ MASK := by
      simp only [THRESHOLD_POS, MASK, sub32, RESOLUTION]
      omega
    simp only [zero_cross_offst, if_pos h1]
  have hps : sub32 f.temp 0 = f.temp := by
    simp only [sub32]
    omega
  have hca : f.temp / 2 ^ 7 * 2 ^ 7 % 2 ^ 32 = f.temp / 2 ^ 7 * 2 ^ 7 := by omega
  simp only [FilterLPF.tick_oflw, FilterLPF.get_output, RESOLUTION, ha, hcur, hzco,
    Nat.add_zero, hps, hca, mask_and]
  rw [lpf_255 _ _ (by omega) (by omega), hout]
  clear ha hT hout hcur hzco hps hca
  have h1 : (255 * f.temp + f.temp / 2 ^ 7 * 2 ^ 7) / 256
      = 2 ^ 7 * (f.temp / 2 ^ 7) + 255 * (f.temp % 2 ^ 7) / 256 := by omega
  rw [h1]
  have h2 : 255 * (f.temp % 2 ^ 7) / 256 < 2 ^ 7 := by omega
  have h3 : f.temp / 2 ^ 7 ≤ 65535 := by omega
  generalize hs : 255 * (f.temp % 2 ^ 7) / 256 = s at h2 ⊢
  generalize hb : f.temp / 2 ^ 7 = b at h3 ⊢
  have h4 : (2 ^ 7 * b + s) % 2 ^ 32 % 2 ^ 23 = 2 ^ 7 * b + s := by omega
  rw [h4, Nat.mul_add_div (by norm_num), Nat.div_eq_of_lt h2]
  omega

/-- Witness for the amended C5 at a concrete reachable state. -/
theorem lpf_alpha255_fixed_witness :
    ((FilterLPF.new 5 255).tick_oflw (FilterLPF.new 5 255).output).get_output
      = (FilterLPF.new 5 255).output :=
  lpf_alpha255_fixed (FilterLPF.new 5 255) rfl (by decide) (by decide)

/-! ## Theorems: position tracker (claim C1) -/

/-- C1: after every `EncoderPosition::tick(input_pos)` the low 16 bits of the
position equal the filter's output for that tick; for a tick whose (signed,
less than half the `u16` range) filtered-angle change `dif` does not overflow
the `i32` position, the rotation component changes by exactly `+1` on an
upward wrap past 65535, by `-1` on a downward wrap, and by `0` otherwise; in
particular with filtering disabled (alpha 0, as constructed by `new`), ticking
65530 then 5 reads back angle 65530 then 5 and increments `rotations()` by
exactly one on the wrap. -/
theorem encoder_position_tick_correct (e : EncoderPosition) (hwf : e.Wf)
    (input : Nat) (hin : input < 65536) :
    ((e.tick input).angle = ((e.filter.tick input).get_output : Int))
    ∧ (∀ dif : Int,
        dif = toI16 (((e.filter.tick input).get_output : Int) - e.position % 65536) →
        -2 ^ 31 ≤ e.position + dif → e.position + dif < 2 ^ 31 →
          ((65536 ≤ e.position % 65536 + dif →
              (e.tick input).rotations = e.rotations + 1)
           ∧ (e.position % 65536 + dif < 0 →
              (e.tick input).rotations = e.rotations - 1)
           ∧ (0 ≤ e.position % 65536 + dif → e.position % 65536 + dif < 65536 →
              (e.tick input).rotations = e.rotations)))
    ∧ ((EncoderPosition.new 1000).tick 65530).angle = 65530
    ∧ (((EncoderPosition.new 1000).tick 65530).tick 5).rotations
        = ((EncoderPosition.new 1000).tick 65530).rotations + 1
    ∧ (((EncoderPosition.new 1000).tick 65530).tick 5).angle = 5 := by
  obtain ⟨hlo, hhi⟩ := hwf
  have houtlt : (FilterLPF.tick e.filter input).output < 65536 :=
    FilterLPF.tick_output_lt e.filter input
  refine ⟨?_, ?_, by decide, by decide, by decide⟩
  · simp only [EncoderPosition.tick, EncoderPosition.angle, FilterLPF.get_output,
      toI16, wrap32]
    omega
  · intro dif hdif h1 h2
    have hW : wrap32 (e.position + dif) = e.position + dif := by
      simp only [wrap32]; omega
    simp only [EncoderPosition.tick, EncoderPosition.rotations,
      FilterLPF.get_output] at hdif ⊢
    rw [← hdif, hW]
    rw [Int.fdiv_eq_ediv _ (by norm_num), Int.fdiv_eq_ediv _ (by norm_num)]
    simp only [toI16] at hdif ⊢
    refine ⟨fun hup => ?_, fun hdown => ?_, fun hge hlt => ?_⟩ <;> omega

/-- Witness for C1: the low-16-bit mirror property at a concrete fresh tracker
and input. -/
theorem encoder_position_tick_correct_witness :
    ((EncoderPosition.new 500).tick 7).angle
      = (((EncoderPosition.new 500).filter.tick 7).get_output : Int) :=
  (encoder_position_tick_correct (EncoderPosition.new 500)
    (by constructor <;> norm_num [EncoderPosition.new]) 7 (by norm_num)).1

/-! ## Theorems: PID controller (claims C6, C7) -/

/-- Helper: one `PID::tick` with limit `0 ≤ L ≤ i16::MAX` bounds both the
clamped integral accumulator and the stored output by `±L`, from any prior
controller state. -/
theorem pid_tick_bounded (p : PID) (e f L : Int) (h0 : 0 ≤ L) (h1 : L ≤ 32767) :
    |(p.tick e f L).integral| ≤ L ∧ |(p.tick e f L).output| ≤ L := by
  rw [abs_le, abs_le]
  simp only [PID.tick, PID.clamp, PID.fixed_point_correction, toI16]
  constructor
  · split <;> [skip; split] <;> omega
  · split <;> [skip; split] <;> omega

/-- Helper: the single-tick bound propagated along any nonempty tick sequence. -/
theorem pid_run_bounded_aux (L : Int) (h0 : 0 ≤ L) (h1 : L ≤ 32767)
    (inputs : List (Int × Int)) (hne : inputs ≠ []) :
    ∀ p : PID, |(p.run inputs L).integral| ≤ L ∧ |(p.run inputs L).output| ≤ L := by
  induction inputs with
  | nil => exact absurd rfl hne
  | cons x xs ih =>
    intro p
    cases xs with
    | nil =>
      simpa [PID.run] using pid_tick_bounded p x.1 x.2 L h0 h1
    | cons y ys =>
      have := ih (by simp) (p.tick x.1 x.2 L)
      simpa [PID.run] using this

/-- C6: for every limit `0 ≤ L ≤ i16::MAX` and every sequence of
`PID::tick(error, feedforward, L)` calls on a freshly constructed controller,
after each tick (equivalently: after running any nonempty prefix) the internal
integral accumulator satisfies `|integral| ≤ L` — the clamp being applied to
the raw accumulator before the `ki` gain — and the retrievable output
satisfies `|output()| ≤ L`. -/
theorem pid_run_bounded (kp ki kd kff L : Int) (h0 : 0 ≤ L) (h1 : L ≤ 32767)
    (inputs : List (Int × Int)) (hne : inputs ≠ []) :
    |((PID.new kp ki kd kff).run inputs L).integral| ≤ L ∧
      |((PID.new kp ki kd kff).run inputs L).output| ≤ L :=
  pid_run_bounded_aux L h0 h1 inputs hne (PID.new kp ki kd kff)

/-- Witness for C6 at concrete gains, limit and tick sequence. -/
theorem pid_run_bounded_witness :
    |((PID.new 100 50 20 10).run [(1000, 0), (2000, 5)] 500).integral| ≤ 500 ∧
      |((PID.new 100 50 20 10).run [(1000, 0), (2000, 5)] 500).output| ≤ 500 :=
  pid_run_bounded 100 50 20 10 500 (by norm_num) (by norm_num)
    [(1000, 0), (2000, 5)] (by decide)

/-- C7: with a 100 percent proportional gain and all other gains zero, the
first `tick(error = 1000, feedforward = 0, limit = 10000)` on a fresh
controller yields `output() = 1000` — pure proportional pass-through under the
controller's own `fit_coef`/`apply_coef` fixed-point scaling. -/
theorem pid_proportional_pass :
    ((PID.new 100 0 0 0).tick 1000 0 10000).output = 1000 := by decide

/-! ## Theorems: calibration table (claim C8) -/

/-- C8: `fill_first(idx, val)` with an out-of-bounds index, or an index that is
neither the previously accepted index nor that index plus one, returns `false`
and leaves the whole table state (in particular `cal_size` and the table
contents) unchanged; an in-bounds sequential index stores `val` at `idx`,
updates `cal_size` to `max(cal_size, idx + 1)`, records `idx`, and returns
`true`.  The `usize` indices are below `2^64`. -/
theorem fill_first_spec (t : CalibrationTable) (N idx val : Nat)
    (htw : t.temp_idx + 1 < 2 ^ 64) (hidx : idx < 2 ^ 64) :
    ((N ≤ idx ∨ (idx ≠ t.temp_idx ∧ idx ≠ t.temp_idx + 1)) →
        t.fill_first N idx val = (t, false))
    ∧ ((idx < N ∧ (idx = t.temp_idx ∨ idx = t.temp_idx + 1)) →
        t.fill_first N idx val =
          ({ t with
              temp_idx := idx
              cal_table := t.cal_table.set idx val
              cal_size := max t.cal_size (idx + 1) }, true)) := by
  constructor
  · intro h
    rw [CalibrationTable.fill_first, if_neg]
    omega
  · intro h
    rw [CalibrationTable.fill_first, if_pos]
    omega

/-- Witness for C8: a non-sequential jump (previous accepted index 0, request
index 3) on a fresh 10-entry table is rejected and mutates nothing. -/
theorem fill_first_spec_witness :
    (CalibrationTable.new 10).fill_first 10 3 777 = (CalibrationTable.new 10, false) :=
  (fill_first_spec (CalibrationTable.new 10) 10 3 777 (by decide) (by decide)).1
    (by decide)

/-! ## Theorems: SVPWM and coil mapping (claims C2, C9) -/

/-- Helper: `toI16` is the identity on the `i16` range. -/
theorem toI16_eq_self (x : Int) (h1 : -32768 ≤ x) (h2 : x ≤ 32767) : toI16 x = x := by
  simp only [toI16]
  omega

/-- Helper: Rust `v / 2` (truncating) expressed through floor division by sign. -/
theorem tdiv_two_eq (v : Int) : Int.tdiv v 2 = if 0 ≤ v then v / 2 else -(-v / 2) := by
  rcases le_or_lt 0 v with h | h
  · rw [if_pos h, Int.tdiv_eq_ediv h (by norm_num)]
  · rw [if_neg (by omega), ← Int.tdiv_eq_ediv (by omega) (by norm_num), Int.neg_tdiv,
      neg_neg]

/-- Helper (over-span SVPWM branch): after proportional scaling by
`s = (A << 15) / full_scale` and subtraction of the scaled minimum, every
channel between `m` and `m + fs` lands in `[0, A]`. -/
theorem scale_channel_bound (v m fs A s : Int) (hm : m ≤ v) (hvM : v - m ≤ fs)
    (hA : 0 ≤ A) (hfs : A < fs) (hs : s = Int.tdiv (A * 2 ^ 15) fs) :
    0 ≤ Int.fdiv (v * s) (2 ^ 15) - Int.fdiv (m * s) (2 ^ 15) ∧
      Int.fdiv (v * s) (2 ^ 15) - Int.fdiv (m * s) (2 ^ 15) ≤ A := by
  have hfs0 : 0 < fs := by omega
  have hs' : s = A * 2 ^ 15 / fs := by
    rw [hs, Int.tdiv_eq_ediv (by positivity) (by omega)]
  have hs0 : 0 ≤ s := by
    rw [hs']
    exact Int.ediv_nonneg (by positivity) (by omega)
  rw [Int.fdiv_eq_ediv _ (by norm_num), Int.fdiv_eq_ediv _ (by norm_num)]
  constructor
  · have := Int.ediv_le_ediv (show (0:Int) < 2 ^ 15 by norm_num)
      (mul_le_mul_of_nonneg_right hm hs0)
    omega
  · have h1 : fs * s ≤ A * 2 ^ 15 := by
      have := Int.ediv_mul_le (A * 2 ^ 15) (show fs ≠ 0 by omega)
      rw [← hs'] at this
      nlinarith [this]
    have h2 : v * s ≤ m * s + A * 2 ^ 15 := by
      have hd : (v - m) * s ≤ fs * s := mul_le_mul_of_nonneg_right hvM hs0
      nlinarith [hd, h1]
    have h3 : v * s / 2 ^ 15 ≤ (m * s + A * 2 ^ 15) / 2 ^ 15 :=
      Int.ediv_le_ediv (by norm_num) h2
    rw [Int.add_mul_ediv_right _ _ (show (2:Int) ^ 15 ≠ 0 by norm_num)] at h3
    omega

/-- Helper (in-span SVPWM branch): the centering shift
`(A - max - min) >> 1` keeps every channel between `min` and `max` inside
`[0, A]` when the span fits the supply. -/
theorem center_channel_bound (v m M A : Int) (hm : m ≤ v) (hM : v ≤ M)
    (h1 : M - m ≤ A) :
    0 ≤ v + Int.fdiv (A - M - m) 2 ∧ v + Int.fdiv (A - M - m) 2 ≤ A := by
  rw [Int.fdiv_eq_ediv _ (by norm_num)]
  omega

/-- C2: for every `i16` pair `(voltg_sin, voltg_cos)` and every supply value
`0 ≤ voltg_available ≤ i16::MAX`, each of the three phase outputs of
`MotorSelector::math_svpwm` lies in `[0, voltg_available]` — by proportional
scaling plus bottom clamping in the over-span case, by the centering shift in
the in-span case, and trivially in the zero-span case (where the inverse
Clarke outputs are all zero). -/
theorem math_svpwm_in_range (sin cos avail : Int)
    (hs1 : -32768 ≤ sin) (hs2 : sin ≤ 32767)
    (hc1 : -32768 ≤ cos) (hc2 : cos ≤ 32767)
    (ha1 : 0 ≤ avail) (ha2 : avail ≤ 32767) :
    (0 ≤ (MotorSelector.math_svpwm sin cos avail).1 ∧
      (MotorSelector.math_svpwm sin cos avail).1 ≤ avail)
    ∧ (0 ≤ (MotorSelector.math_svpwm sin cos avail).2.1 ∧
      (MotorSelector.math_svpwm sin cos avail).2.1 ≤ avail)
    ∧ (0 ≤ (MotorSelector.math_svpwm sin cos avail).2.2 ∧
      (MotorSelector.math_svpwm sin cos avail).2.2 ≤ avail) := by
  rcases habc : inverse_clarke_transform sin cos with ⟨a0, b0, c0⟩
  have hicl := habc
  simp only [inverse_clarke_transform, Prod.mk.injEq] at hicl
  obtain ⟨ha0, hb0, hc0⟩ := hicl
  simp only [MotorSelector.math_svpwm, habc]
  set m := min (min a0 b0) c0 with hm
  set M := max (max a0 b0) c0 with hM
  have hma : m ≤ a0 := le_trans (min_le_left _ _) (min_le_left _ _)
  have hmb : m ≤ b0 := le_trans (min_le_left _ _) (min_le_right _ _)
  have hmc : m ≤ c0 := min_le_right _ _
  have haM : a0 ≤ M := le_trans (le_max_left _ _) (le_max_left _ _)
  have hbM : b0 ≤ M := le_trans (le_max_right _ _) (le_max_left _ _)
  have hcM : c0 ≤ M := le_max_right _ _
  split
  case isTrue hnz =>
    split
    case isTrue hover =>
      dsimp only
      have hA := scale_channel_bound a0 m (M - m) avail _ hma (by omega) ha1 hover rfl
      have hB := scale_channel_bound b0 m (M - m) avail _ hmb (by omega) ha1 hover rfl
      have hC := scale_channel_bound c0 m (M - m) avail _ hmc (by omega) ha1 hover rfl
      refine ⟨?_, ?_, ?_⟩ <;>
        · rw [toI16_eq_self _ (by omega) (by omega)]
          constructor <;> omega
    case isFalse hover =>
      dsimp only
      have hA := center_channel_bound a0 m M avail hma haM (by omega)
      have hB := center_channel_bound b0 m M avail hmb hbM (by omega)
      have hC := center_channel_bound c0 m M avail hmc hcM (by omega)
      refine ⟨?_, ?_, ?_⟩ <;>
        · rw [toI16_eq_self _ (by omega) (by omega)]
          constructor <;> omega
  case isFalse hz =>
    rw [if_neg (by omega)]
    dsimp only
    have hzero : a0 = 0 ∧ b0 = 0 ∧ c0 = 0 := by
      rw [Int.fdiv_eq_ediv _ (by norm_num)] at hb0 hc0
      omega
    obtain ⟨hz1, hz2, hz3⟩ := hzero
    rw [hz1, hz2, hz3]
    rw [toI16_eq_self 0 (by norm_num) (by norm_num)]
    norm_num
    omega

/-- Witness for C2 at a concrete over-span input. -/
theorem math_svpwm_in_range_witness :
    (0 ≤ (MotorSelector.math_svpwm 30000 (-20000) 10000).1 ∧
      (MotorSelector.math_svpwm 30000 (-20000) 10000).1 ≤ 10000)
    ∧ (0 ≤ (MotorSelector.math_svpwm 30000 (-20000) 10000).2.1 ∧
      (MotorSelector.math_svpwm 30000 (-20000) 10000).2.1 ≤ 10000)
    ∧ (0 ≤ (MotorSelector.math_svpwm 30000 (-20000) 10000).2.2 ∧
      (MotorSelector.math_svpwm 30000 (-20000) 10000).2.2 ≤ 10000) :=
  math_svpwm_in_range 30000 (-20000) 10000 (by norm_num) (by norm_num)
    (by norm_num) (by norm_num) (by norm_num) (by norm_num)

/-- C9 counterexample: `math_coil(0)` does NOT return the midpoint pair
`(i16::MAX/2, i16::MAX/2) = (16383, 16383)`; the zero reference is passed
through unchanged, giving `(0, 0)`. -/
theorem math_coil_zero_not_midpoint :
    MotorSelector.math_coil 0 ≠ (16383, 16383) := by decide

/-- C9 (amended): `math_coil` passes the `i16::MIN` "disabled" sentinel
through unchanged; for `v = 0` it also passes the reference through unchanged,
returning `(0, 0)` (no duty commanded, but not the midpoint pair); for every
other `i16` reference it returns `(MIDPOINT + v/2, MIDPOINT - v/2)` with
`MIDPOINT = i16::MAX/2 = 16383` and truncating division. -/
theorem math_coil_spec (v : Int) (hlo : -32768 ≤ v) (hhi : v ≤ 32767) :
    MotorSelector.math_coil (-32768) = (-32768, -32768)
    ∧ MotorSelector.math_coil 0 = (0, 0)
    ∧ (v ≠ -32768 → v ≠ 0 →
        MotorSelector.math_coil v = (16383 + Int.tdiv v 2, 16383 - Int.tdiv v 2)) := by
  refine ⟨by decide, by decide, fun h1 h2 => ?_⟩
  rw [MotorSelector.math_coil, if_neg (by simp [MotorSelector.DISBL, h1, h2])]
  simp only [toI16, Prod.mk.injEq, tdiv_two_eq]
  split <;> constructor <;> omega

/-- Witness for the amended C9 at a concrete reference. -/
theorem math_coil_spec_witness :
    MotorSelector.math_coil 100 = (16383 + Int.tdiv 100 2, 16383 - Int.tdiv 100 2) :=
  (math_coil_spec 100 (by norm_num) (by norm_num)).2.2 (by decide) (by decide)

/-! ## Theorems: phase selector safety (claim C10) -/

/-- Helper: a 2-bit field is below 4. -/
theorem and_three_lt (x : Nat) : x &&& 3 < 4 := by
  have h := Nat.and_pow_two_sub_one_eq_mod x 2
  norm_num at h
  omega

/-- Helper: every decoded 2-bit channel index is below 4, for any mode byte. -/
theorem decode_lt (m : Nat) : ∀ i ∈ PhaseSelector.decode m, i < 4 := by
  intro i hi
  simp only [PhaseSelector.decode, List.mem_cons, List.not_mem_nil, or_false] at hi
  rcases hi with rfl | rfl | rfl | rfl <;> exact and_three_lt _

/-- C10: for every mode byte (any `Nat`, in particular any `u8`) and every
4-element voltage array, the `PhaseSelector` is safe: `new` and `change_mode`
only ever produce decoded channel indices below 4, and under that invariant
every array access of `tick` is in bounds (`get?` is `some`) and `tick`
returns a full 4-channel array. -/
theorem phase_selector_safe (p : PhasePattern) (s : PhaseSelector) (m : Nat)
    (volt : List Int) (hv : volt.length = 4) :
    (PhaseSelector.new p).Inv
    ∧ (s.change_mode m).Inv
    ∧ (s.Inv → ∀ k ∈ s.idxs, (volt.get? k).isSome)
    ∧ (s.Inv → (s.tick volt).length = 4) := by
  refine ⟨⟨rfl, decode_lt _⟩, ⟨rfl, decode_lt _⟩, fun hInv k hk => ?_, fun _ => rfl⟩
  have hk4 := hInv.2 k hk
  rw [List.get?_eq_getElem?, List.getElem?_eq_getElem (by omega)]
  rfl

/-- Witness for C10: the fresh `ABCD` selector satisfies the invariant (and a
mode change to an arbitrary byte keeps it). -/
theorem phase_selector_safe_witness :
    (PhaseSelector.new PhasePattern.ABCD).Inv
    ∧ ((PhaseSelector.new PhasePattern.ABCD).change_mode 0b10110001).Inv :=
  ⟨(phase_selector_safe PhasePattern.ABCD (PhaseSelector.new PhasePattern.ABCD)
      0b10110001 [1, 2, 3, 4] (by decide)).1,
   (phase_selector_safe PhasePattern.ABCD (PhaseSelector.new PhasePattern.ABCD)
      0b10110001 [1, 2, 3, 4] (by decide)).2.1⟩

/-! ## Theorems: fail-safe error state (claim C3) -/

/-- C3: whenever the driver status is `Error`, a tick commands zero amplitude
but the PWM pipeline still runs and returns a well-defined 4-channel array:
`MotorDriver::tick` sets `amplitude := 0`, leaves the status `Error` (so every
subsequent tick behaves the same), and still computes and returns the full
`tick_angle` PWM array at zero amplitude; and `DriverPWM::tick_control`
substitutes `(0, 0)` for the commanded `(a, b)` pair, producing the same
outputs as an explicit zero command while never skipping the pipeline. -/
theorem error_state_fail_safe
    (d : MotorDriver) (va : Int × Int) (enc : Int)
    (hd : d.motor_status = MotorStatus.Error)
    (p : DriverPWM) (ab : Int × Int) (supply : Int)
    (hp : p.status = DriverStatus.Error) :
    ((d.tick va enc).1.amplitude = 0
      ∧ (d.tick va enc).1.motor_status = MotorStatus.Error
      ∧ (d.tick va enc).2 = (d.motor.tick_angle (toI16 d.angle_el, 0)).2
      ∧ (d.tick va enc).2.length = 4)
    ∧ p.tick_control ab supply = p.tick_control (0, 0) supply := by
  constructor
  · simp only [MotorDriver.tick, hd]
    simp [MotorPWM.tick_angle, MotorPWM.tick, PhaseSelector.tick]
  · simp only [DriverPWM.tick_control, hp]

/-- Witness for C3: a concrete errored driver ticks to zero amplitude. -/
theorem error_state_fail_safe_witness :
    (({ MotorDriver.new MotorType.BLDC PhasePattern.ABCD 1000 with
          motor_status := MotorStatus.Error } : MotorDriver).tick (100, 200) 7).1.amplitude
      = 0 :=
  (error_state_fail_safe
    { MotorDriver.new MotorType.BLDC PhasePattern.ABCD 1000 with
        motor_status := MotorStatus.Error } (100, 200) 7 rfl
    { DriverPWM.new
        { resistance := 50, pole_type := MotorType.BLDC,
          connection := PhasePattern.ABCD, direction := 1 }
        ControlMode.VoltageAB with status := DriverStatus.Error }
    (5, 6) 24000 rfl).1.1

end TunePulse
